import Mathlib

/-!
# Inventory ledger and projection engine: a shallow embedding

This file embeds the inventory data model and the projection functions of
`canva_embeddable_restaurant_inventory_app_react.jsx` (the ledger of
transactions and the pure folds that derive current stock, daily movement
records, trailing average daily usage, reorder suggestions and period
usage reports) and proves the specified properties about them.

Numbers are modelled as rationals (`ℚ`); timestamps as integers counting
milliseconds since the epoch, with the calendar date taken in UTC (the
source stores ISO instants produced by `toISOString`, which are UTC).
JavaScript `Math.round(x)` is `⌊x + 1/2⌋` and `Math.ceil` is `⌈x⌉`.
-/

namespace Inventory

/-- Transaction type tag: the source discriminates on the strings
`receive`, `use`, `wastage`, `transfer`. -/
inductive TxType where
  | receive
  | use
  | wastage
  | transfer
deriving DecidableEq

/-- A ledger transaction. `branchId` is populated for receive/use/wastage,
`branchFrom`/`branchTo` for transfers; in the source these are plain
object fields that may be absent, hence `Option`. `date` is the epoch
timestamp in milliseconds of the ISO instant. -/
structure Tx where
  id : String
  type : TxType
  itemId : String
  qty : ℚ
  date : ℤ
  notes : String
  branchId : Option String
  branchFrom : Option String
  branchTo : Option String
deriving DecidableEq

/-- A branch `{ id, name }`. -/
structure Branch where
  id : String
  name : String
deriving DecidableEq

/-- A master item. `leadTime` is `Option ℚ` because the JavaScript field
may be absent; the source reads it as `item.leadTime || 2`, so both an
absent field and a stored `0` fall back to the default. -/
structure Item where
  id : String
  name : String
  category : String
  unit : String
  minStock : ℚ
  preferredOrder : ℚ
  leadTime : Option ℚ
  unitCost : ℚ
  storage : String
deriving DecidableEq

/-- The whole demo database state `{ branches, items, transactions }`. -/
structure Db where
  branches : List Branch
  items : List Item
  transactions : List Tx
deriving DecidableEq

/-- Milliseconds per day. -/
def msPerDay : ℤ := 86400000

/-- The UTC calendar day of an epoch-millisecond timestamp, as a day
number: the embedding of `date.slice(0, 10)` (two timestamps slice to the
same ISO date exactly when they lie in the same UTC day). -/
def dayOf (t : ℤ) : ℤ := t.fdiv msPerDay

/-- JavaScript `Math.round(x * 100) / 100`: round to two decimal places,
halves towards positive infinity. -/
def round2 (q : ℚ) : ℚ := (⌊q * 100 + 1/2⌋ : ℚ) / 100

/-! ## Current-stock projection (`getCurrentStock`) -/

/-- One step of the `forEach` fold in `getCurrentStock`: skip transactions
of other items, then apply each of the five signed movement rules in
source order. -/
def stockStep (branchIdArg itemIdArg : String) (stock : ℚ) (t : Tx) : ℚ :=
  if t.itemId ≠ itemIdArg then stock else
  let stock := if t.type = .receive ∧ t.branchId = some branchIdArg then stock + t.qty else stock
  let stock := if t.type = .transfer ∧ t.branchTo = some branchIdArg then stock + t.qty else stock
  let stock := if t.type = .use ∧ t.branchId = some branchIdArg then stock - t.qty else stock
  let stock := if t.type = .wastage ∧ t.branchId = some branchIdArg then stock - t.qty else stock
  if t.type = .transfer ∧ t.branchFrom = some branchIdArg then stock - t.qty else stock

/-- `getCurrentStock(branchIdArg, itemIdArg)`: fold the five movement
rules over the transaction list, then `Math.max(0, Math.round(stock*100)/100)`. -/
def getCurrentStock (branchIdArg itemIdArg : String) (txs : List Tx) : ℚ :=
  max 0 (round2 (txs.foldl (stockStep branchIdArg itemIdArg) 0))

/-- Specification-side signed contribution of a single transaction to the
stock of `branch`: +qty for receive at the branch or transfer into it,
−qty for use/wastage at the branch or transfer out of it. -/
def txEffect (branch : String) (t : Tx) : ℚ :=
  (if t.type = .receive ∧ t.branchId = some branch then t.qty else 0)
  + (if t.type = .transfer ∧ t.branchTo = some branch then t.qty else 0)
  - (if t.type = .use ∧ t.branchId = some branch then t.qty else 0)
  - (if t.type = .wastage ∧ t.branchId = some branch then t.qty else 0)
  - (if t.type = .transfer ∧ t.branchFrom = some branch then t.qty else 0)

/-- Specification-side signed stock sum: the sum of `txEffect` over the
transactions of the item, before clamping and rounding. -/
def signedStock (branch item : String) (txs : List Tx) : ℚ :=
  ((txs.filter (fun t => decide (t.itemId = item))).map (txEffect branch)).sum

theorem stockStep_eq (b i : String) (s : ℚ) (t : Tx) :
    stockStep b i s t = s + (if t.itemId = i then txEffect b t else 0) := by
  unfold stockStep txEffect
  by_cases hi : t.itemId = i
  · simp only [hi, ite_not, if_pos rfl, ne_eq, not_true_eq_false, if_false]
    split_ifs <;> ring
  · simp [hi]

theorem foldl_stockStep (b i : String) :
    ∀ (txs : List Tx) (a : ℚ), txs.foldl (stockStep b i) a = a + signedStock b i txs
  | [], a => by simp [signedStock]
  | t :: ts, a => by
    rw [List.foldl_cons, foldl_stockStep b i ts, stockStep_eq]
    unfold signedStock
    by_cases hi : t.itemId = i <;> simp [hi] <;> ring

theorem round2_intCast (n : ℤ) : round2 (n : ℚ) = (n : ℚ) := by
  unfold round2
  have h : (n : ℚ) * 100 + 1/2 = ((100 * n : ℤ) : ℚ) + 1/2 := by push_cast; ring
  have h2 : ⌊(1/2 : ℚ)⌋ = 0 := by rw [Int.floor_eq_zero_iff, Set.mem_Ico]; norm_num
  rw [h, Int.floor_int_add, h2, add_zero]
  push_cast
  ring

theorem getCurrentStock_of_foldl {b i : String} {txs : List Tx} {n : ℤ}
    (h : txs.foldl (stockStep b i) 0 = (n : ℚ)) :
    getCurrentStock b i txs = max 0 (n : ℚ) := by
  rw [getCurrentStock, h, round2_intCast]

/-- **C1.** `getCurrentStock` equals the signed per-item sum (+receive at
the branch, +transfer in, −use, −wastage, −transfer out), rounded to two
decimals and clamped at 0; it is never negative; and on the concrete
scenario (receive 20 at A, use 5 at A, transfer 3 from A to B) branch A
holds 12 and branch B holds 3. -/
theorem getCurrentStock_spec :
    (∀ (b i : String) (txs : List Tx),
        getCurrentStock b i txs = max 0 (round2 (signedStock b i txs)))
    ∧ (∀ (b i : String) (txs : List Tx), 0 ≤ getCurrentStock b i txs)
    ∧ (getCurrentStock "A" "i1"
          [⟨"t1", .receive, "i1", 20, 0, "", some "A", none, none⟩,
           ⟨"t2", .use, "i1", 5, 1, "", some "A", none, none⟩,
           ⟨"t3", .transfer, "i1", 3, 2, "", none, some "A", some "B"⟩] = 12
       ∧ getCurrentStock "B" "i1"
          [⟨"t1", .receive, "i1", 20, 0, "", some "A", none, none⟩,
           ⟨"t2", .use, "i1", 5, 1, "", some "A", none, none⟩,
           ⟨"t3", .transfer, "i1", 3, 2, "", none, some "A", some "B"⟩] = 3) := by
  refine ⟨?_, ?_, ?_, ?_⟩
  · intro b i txs
    rw [getCurrentStock, foldl_stockStep, zero_add]
  · intro b i txs
    exact le_max_left 0 _
  · have h : List.foldl (stockStep "A" "i1") 0
        [⟨"t1", .receive, "i1", 20, 0, "", some "A", none, none⟩,
         ⟨"t2", .use, "i1", 5, 1, "", some "A", none, none⟩,
         ⟨"t3", .transfer, "i1", 3, 2, "", none, some "A", some "B"⟩] = ((12 : ℤ) : ℚ) := by
      simp [List.foldl, stockStep] <;> norm_num
    rw [getCurrentStock_of_foldl h]
    norm_num
  · have h : List.foldl (stockStep "B" "i1") 0
        [⟨"t1", .receive, "i1", 20, 0, "", some "A", none, none⟩,
         ⟨"t2", .use, "i1", 5, 1, "", some "A", none, none⟩,
         ⟨"t3", .transfer, "i1", 3, 2, "", none, some "A", some "B"⟩] = ((3 : ℤ) : ℚ) := by
      simp [List.foldl, stockStep] <;> norm_num
    rw [getCurrentStock_of_foldl h]
    norm_num

/-! ## Order independence of the stock projection -/

/-- **C8.** `getCurrentStock` is order-independent: permuting the
transaction sequence never changes the result, because the fold is a pure
sum over the multiset of transactions, not a running balance. -/
theorem getCurrentStock_perm (b i : String) (txs txs' : List Tx)
    (h : txs.Perm txs') : getCurrentStock b i txs = getCurrentStock b i txs' := by
  unfold getCurrentStock
  rw [foldl_stockStep, foldl_stockStep]
  unfold signedStock
  rw [List.Perm.sum_eq ((h.filter _).map _)]

/-- Witness for C8: swapping a receive and a use transaction leaves the
current stock unchanged. -/
theorem getCurrentStock_perm_witness :
    getCurrentStock "A" "i1"
        [⟨"t1", .receive, "i1", 20, 0, "", some "A", none, none⟩,
         ⟨"t2", .use, "i1", 5, 1, "", some "A", none, none⟩]
      = getCurrentStock "A" "i1"
        [⟨"t2", .use, "i1", 5, 1, "", some "A", none, none⟩,
         ⟨"t1", .receive, "i1", 20, 0, "", some "A", none, none⟩] :=
  getCurrentStock_perm "A" "i1" _ _
    (List.Perm.swap (⟨"t2", .use, "i1", 5, 1, "", some "A", none, none⟩ : Tx)
      (⟨"t1", .receive, "i1", 20, 0, "", some "A", none, none⟩ : Tx) [])

/-! ## Conservation across transfers -/

/-- **C3 counterexample.** Appending a transfer of 5 from branch A to
branch B to the empty ledger does not change `currentStock(A)` by −5, and
the two-branch total is not conserved: the clamp at zero absorbs the
deduction on the empty source branch. -/
theorem getCurrentStock_transfer_not_conserving :
    getCurrentStock "A" "i1"
        ([] ++ [⟨"t1", .transfer, "i1", 5, 0, "", none, some "A", some "B"⟩])
      ≠ getCurrentStock "A" "i1" [] - 5
    ∧ getCurrentStock "A" "i1"
          ([] ++ [⟨"t1", .transfer, "i1", 5, 0, "", none, some "A", some "B"⟩])
        + getCurrentStock "B" "i1"
          ([] ++ [⟨"t1", .transfer, "i1", 5, 0, "", none, some "A", some "B"⟩])
      ≠ getCurrentStock "A" "i1" [] + getCurrentStock "B" "i1" [] := by
  have hA : List.foldl (stockStep "A" "i1") 0
      [⟨"t1", .transfer, "i1", 5, 0, "", none, some "A", some "B"⟩] = ((-5 : ℤ) : ℚ) := by
    simp [List.foldl, stockStep] <;> norm_num
  have hB : List.foldl (stockStep "B" "i1") 0
      [⟨"t1", .transfer, "i1", 5, 0, "", none, some "A", some "B"⟩] = ((5 : ℤ) : ℚ) := by
    simp [List.foldl, stockStep] <;> norm_num
  have h0 : ∀ b : String, getCurrentStock b "i1" [] = 0 := by
    intro b
    rw [getCurrentStock_of_foldl (n := 0) (by simp [List.foldl])]
    norm_num
  rw [List.nil_append, getCurrentStock_of_foldl hA, getCurrentStock_of_foldl hB, h0, h0]
  norm_num

/-- **C3 amended.** Conservation holds for the signed (pre-clamp,
pre-round) stock sum inside `getCurrentStock`: appending a transfer of
quantity `q` from A to B (A ≠ B) changes the signed sum of A by −q, that
of B by +q, and leaves the signed two-branch total unchanged. -/
theorem signedStock_transfer_conserves (txs : List Tx) (A B i : String) (t : Tx)
    (hty : t.type = .transfer) (hit : t.itemId = i)
    (hfrom : t.branchFrom = some A) (hto : t.branchTo = some B) (hAB : A ≠ B) :
    signedStock A i (txs ++ [t]) = signedStock A i txs - t.qty
    ∧ signedStock B i (txs ++ [t]) = signedStock B i txs + t.qty
    ∧ signedStock A i (txs ++ [t]) + signedStock B i (txs ++ [t])
        = signedStock A i txs + signedStock B i txs := by
  have hBA : B ≠ A := fun h => hAB h.symm
  have heffA : txEffect A t = -t.qty := by
    unfold txEffect
    rw [hty, hfrom, hto]
    simp [hBA]
  have heffB : txEffect B t = t.qty := by
    unfold txEffect
    rw [hty, hfrom, hto]
    simp [hAB]
  have happ : ∀ b : String, signedStock b i (txs ++ [t])
      = signedStock b i txs + txEffect b t := by
    intro b
    unfold signedStock
    rw [List.filter_append, List.map_append, List.sum_append]
    simp [hit]
  refine ⟨?_, ?_, ?_⟩
  · rw [happ, heffA]; ring
  · rw [happ, heffB]
  · rw [happ, happ, heffA, heffB]; ring

/-- Witness for the amended C3: a concrete transfer of 5 from A to B on
top of a one-receive ledger moves the signed sums by −5 and +5. -/
theorem signedStock_transfer_conserves_witness :
    signedStock "A" "i1"
        ([⟨"t0", .receive, "i1", 20, 0, "", some "A", none, none⟩]
          ++ [⟨"t1", .transfer, "i1", 5, 1, "", none, some "A", some "B"⟩])
      = signedStock "A" "i1" [⟨"t0", .receive, "i1", 20, 0, "", some "A", none, none⟩] - 5
    ∧ signedStock "B" "i1"
        ([⟨"t0", .receive, "i1", 20, 0, "", some "A", none, none⟩]
          ++ [⟨"t1", .transfer, "i1", 5, 1, "", none, some "A", some "B"⟩])
      = signedStock "B" "i1" [⟨"t0", .receive, "i1", 20, 0, "", some "A", none, none⟩] + 5
    ∧ signedStock "A" "i1"
          ([⟨"t0", .receive, "i1", 20, 0, "", some "A", none, none⟩]
            ++ [⟨"t1", .transfer, "i1", 5, 1, "", none, some "A", some "B"⟩])
        + signedStock "B" "i1"
          ([⟨"t0", .receive, "i1", 20, 0, "", some "A", none, none⟩]
            ++ [⟨"t1", .transfer, "i1", 5, 1, "", none, some "A", some "B"⟩])
      = signedStock "A" "i1" [⟨"t0", .receive, "i1", 20, 0, "", some "A", none, none⟩]
        + signedStock "B" "i1" [⟨"t0", .receive, "i1", 20, 0, "", some "A", none, none⟩] :=
  signedStock_transfer_conserves
    [⟨"t0", .receive, "i1", 20, 0, "", some "A", none, none⟩] "A" "B" "i1"
    ⟨"t1", .transfer, "i1", 5, 1, "", none, some "A", some "B"⟩
    rfl rfl rfl rfl (by decide)

/-! ## CRUD helpers on the database state -/

/-- A patch for `updateItem`: the JavaScript caller passes an object whose
present keys override the item's fields via `{ ...it, ...patch }`. An
absent key is `none`. -/
structure ItemPatch where
  id : Option String := none
  name : Option String := none
  category : Option String := none
  unit : Option String := none
  minStock : Option ℚ := none
  preferredOrder : Option ℚ := none
  leadTime : Option (Option ℚ) := none
  unitCost : Option ℚ := none
  storage : Option String := none
deriving DecidableEq

/-- The JavaScript object merge `{ ...it, ...patch }`. -/
def mergePatch (it : Item) (p : ItemPatch) : Item where
  id := p.id.getD it.id
  name := p.name.getD it.name
  category := p.category.getD it.category
  unit := p.unit.getD it.unit
  minStock := p.minStock.getD it.minStock
  preferredOrder := p.preferredOrder.getD it.preferredOrder
  leadTime := p.leadTime.getD it.leadTime
  unitCost := p.unitCost.getD it.unitCost
  storage := p.storage.getD it.storage

/-- `updateItem(itemId, patch)`: map the patch over the matching item. -/
def updateItem (st : Db) (itemId : String) (patch : ItemPatch) : Db :=
  { st with items := st.items.map (fun it => if it.id = itemId then mergePatch it patch else it) }

/-- `removeItem(itemId)`: filter the item out of the master list. -/
def removeItem (st : Db) (itemId : String) : Db :=
  { st with items := st.items.filter (fun it => decide (it.id ≠ itemId)) }

/-- `addTransaction(tx)`: assign a fresh id (the random generator is
modelled as the explicit argument `newId`) and append to the transaction
list, returning the new state and the stored transaction. No validation
is performed here. -/
def addTransaction (st : Db) (tx : Tx) (newId : String) : Db × Tx :=
  let ntx : Tx := { tx with id := newId }
  ({ st with transactions := st.transactions ++ [ntx] }, ntx)

/-- **C10.** `removeItem` and `updateItem` leave the transaction ledger
unchanged, and therefore `getCurrentStock` for every branch and item id is
identical before and after the item-list change. -/
theorem itemCrud_preserves_stock (st : Db) (itemId : String) (patch : ItemPatch)
    (b i : String) :
    (removeItem st itemId).transactions = st.transactions
    ∧ (updateItem st itemId patch).transactions = st.transactions
    ∧ getCurrentStock b i (removeItem st itemId).transactions
        = getCurrentStock b i st.transactions
    ∧ getCurrentStock b i (updateItem st itemId patch).transactions
        = getCurrentStock b i st.transactions :=
  ⟨rfl, rfl, rfl, rfl⟩

/-! ## Ledger-append validation (`createTransfer`) -/

/-- The transfer form state in `TransfersView`. -/
structure TransferForm where
  branchFrom : String
  branchTo : String
  itemId : String
  qty : ℚ
  notes : String
deriving DecidableEq

/-- `createTransfer()`: reject an empty item selection or
`branchFrom === branchTo` (returning the state unchanged after the
alert); otherwise append the transfer through `addTransaction`. The
quantity is NOT validated anywhere on this path. `now` is the timestamp
of `new Date().toISOString()` and `newId` the generated id. -/
def createTransfer (st : Db) (form : TransferForm) (now : ℤ) (newId : String) : Db :=
  if form.itemId = "" then st
  else if form.branchFrom = form.branchTo then st
  else (addTransaction st
    ⟨"", .transfer, form.itemId, form.qty, now, form.notes,
      none, some form.branchFrom, some form.branchTo⟩ newId).1

/-- **C2 (code bug).** A transfer with `qty = 0 ≤ 0` between distinct
branches is appended to the ledger by `createTransfer`: the ledger grows
by one transaction whose qty is 0, instead of the append being rejected
with the ledger unchanged. `addTransaction`, the ledger-append boundary,
performs no validation at all. -/
theorem createTransfer_appends_nonpositive_qty :
    ((createTransfer ⟨[], [], []⟩ ⟨"b_1", "b_2", "i_veg_tom", 0, ""⟩ 0 "t_x").transactions).length
        = ([] : List Tx).length + 1
    ∧ (createTransfer ⟨[], [], []⟩ ⟨"b_1", "b_2", "i_veg_tom", 0, ""⟩ 0 "t_x").transactions
        = [⟨"t_x", .transfer, "i_veg_tom", 0, 0, "", none, some "b_1", some "b_2"⟩]
    ∧ (0 : ℚ) ≤ 0 := by
  refine ⟨?_, ?_, le_refl 0⟩ <;> rfl

/-! ## Trailing average daily usage (`avgUsageForItem`) -/

/-- One step of the `forEach` in `avgUsageForItem`: for a `use`
transaction of the branch and item whose date is on or after the cutoff,
add its qty to the running total and its calendar day to the seen-day
set (`Set.add`, modelled by `List.insert`). -/
def avgStep (branchIdArg itemIdArg : String) (cutoff : ℤ)
    (acc : ℚ × List ℤ) (t : Tx) : ℚ × List ℤ :=
  if t.type = .use ∧ t.branchId = some branchIdArg ∧ t.itemId = itemIdArg then
    if cutoff ≤ t.date then (acc.1 + t.qty, acc.2.insert (dayOf t.date)) else acc
  else acc

/-- `avgUsageForItem(branchId, itemId, rangeDays)`: cutoff is `now` minus
`rangeDays` days; fold the qualifying `use` transactions into a total and
a set of distinct days; divide the total by the day count, falling back
to `rangeDays` when no day was seen (`daysSeen.size || rangeDays`). -/
def avgUsageForItem (branchIdArg itemIdArg : String) (rangeDays : ℤ) (now : ℤ)
    (txs : List Tx) : ℚ :=
  let cutoff := now - rangeDays * msPerDay
  let acc := txs.foldl (avgStep branchIdArg itemIdArg cutoff) (0, [])
  let days : ℤ := if acc.2.length = 0 then rangeDays else (acc.2.length : ℤ)
  acc.1 / (days : ℚ)

/-- Specification-side qualifying predicate for the usage window: a
`use` transaction of the branch and item dated on or after the cutoff. -/
def usageQualifies (b i : String) (cutoff : ℤ) (t : Tx) : Bool :=
  decide (t.type = TxType.use ∧ t.branchId = some b ∧ t.itemId = i ∧ cutoff ≤ t.date)

/-- The qualifying transactions of the window. -/
def usageQualifying (b i : String) (cutoff : ℤ) (txs : List Tx) : List Tx :=
  txs.filter (usageQualifies b i cutoff)

/-- Total quantity used in the window. -/
def usageTotal (b i : String) (cutoff : ℤ) (txs : List Tx) : ℚ :=
  ((usageQualifying b i cutoff txs).map Tx.qty).sum

/-- The (not yet deduplicated) calendar days of the qualifying
transactions. -/
def qualDays (b i : String) (cutoff : ℤ) (txs : List Tx) : List ℤ :=
  (usageQualifying b i cutoff txs).map (fun t => dayOf t.date)

/-- Count of distinct calendar days on which at least one qualifying
transaction occurred. -/
def activeDays (b i : String) (cutoff : ℤ) (txs : List Tx) : ℕ :=
  (qualDays b i cutoff txs).dedup.length

theorem foldl_avgStep (b i : String) (c : ℤ) :
    ∀ (txs : List Tx) (a : ℚ × List ℤ),
      txs.foldl (avgStep b i c) a
        = (a.1 + usageTotal b i c txs,
           (qualDays b i c txs).foldl (fun s d => s.insert d) a.2)
  | [], a => by simp [usageTotal, usageQualifying, qualDays]
  | t :: ts, a => by
    rw [List.foldl_cons, foldl_avgStep b i c ts]
    by_cases h1 : t.type = TxType.use ∧ t.branchId = some b ∧ t.itemId = i
    · by_cases h2 : c ≤ t.date
      · have hq : usageQualifies b i c t = true := by
          simp [usageQualifies, h1.1, h1.2.1, h1.2.2, h2]
        have havg : avgStep b i c a t = (a.1 + t.qty, a.2.insert (dayOf t.date)) := by
          rw [avgStep, if_pos h1, if_pos h2]
        have hqt : usageTotal b i c (t :: ts) = t.qty + usageTotal b i c ts := by
          rw [usageTotal, usageTotal, usageQualifying, usageQualifying,
            List.filter_cons, hq]
          simp
        have hqd : qualDays b i c (t :: ts) = dayOf t.date :: qualDays b i c ts := by
          rw [qualDays, qualDays, usageQualifying, usageQualifying, List.filter_cons, hq]
          simp
        rw [havg, hqt, hqd, List.foldl_cons, Prod.mk.injEq]
        exact ⟨by ring, rfl⟩
      · have hq : usageQualifies b i c t = false := by
          simp [usageQualifies, h2]
        have havg : avgStep b i c a t = a := by
          rw [avgStep, if_pos h1, if_neg h2]
        have hqt : usageTotal b i c (t :: ts) = usageTotal b i c ts := by
          rw [usageTotal, usageTotal, usageQualifying, usageQualifying,
            List.filter_cons, hq]
          simp
        have hqd : qualDays b i c (t :: ts) = qualDays b i c ts := by
          rw [qualDays, qualDays, usageQualifying, usageQualifying, List.filter_cons, hq]
          simp
        rw [havg, hqt, hqd]
    · have hq : usageQualifies b i c t = false := by
        simp only [usageQualifies, decide_eq_false_iff_not]
        intro hcon
        exact h1 ⟨hcon.1, hcon.2.1, hcon.2.2.1⟩
      have havg : avgStep b i c a t = a := by
        rw [avgStep, if_neg h1]
      have hqt : usageTotal b i c (t :: ts) = usageTotal b i c ts := by
        rw [usageTotal, usageTotal, usageQualifying, usageQualifying,
          List.filter_cons, hq]
        simp
      have hqd : qualDays b i c (t :: ts) = qualDays b i c ts := by
        rw [qualDays, qualDays, usageQualifying, usageQualifying, List.filter_cons, hq]
        simp
      rw [havg, hqt, hqd]

theorem foldl_insert_toFinset :
    ∀ (l s : List ℤ), (l.foldl (fun s d => s.insert d) s).toFinset = s.toFinset ∪ l.toFinset
  | [], s => by simp
  | d :: l, s => by
    rw [List.foldl_cons, foldl_insert_toFinset l]
    have h : (s.insert d).toFinset = insert d s.toFinset := by
      ext x
      simp [List.mem_insert_iff]
    rw [h, List.toFinset_cons]
    ext x
    simp

theorem foldl_insert_nodup :
    ∀ (l s : List ℤ), s.Nodup → (l.foldl (fun s d => s.insert d) s).Nodup
  | [], _, h => h
  | d :: l, s, h => by
    rw [List.foldl_cons]
    exact foldl_insert_nodup l _ (h.insert)

theorem length_foldl_insert_nil (l : List ℤ) :
    (l.foldl (fun s d => s.insert d) []).length = l.dedup.length := by
  rw [← List.toFinset_card_of_nodup (foldl_insert_nodup l [] (by simp)),
    foldl_insert_toFinset l []]
  simp [List.card_toFinset]

/-- The fold inside `avgUsageForItem` equals the filtered sum divided by
the distinct-active-day count (with the `rangeDays` fallback). -/
theorem avgUsageForItem_eq (b i : String) (rangeDays now : ℤ) (txs : List Tx) :
    avgUsageForItem b i rangeDays now txs
      = usageTotal b i (now - rangeDays * msPerDay) txs
        / (((if activeDays b i (now - rangeDays * msPerDay) txs = 0
              then rangeDays
              else (activeDays b i (now - rangeDays * msPerDay) txs : ℤ)) : ℤ) : ℚ) := by
  simp only [avgUsageForItem]
  rw [foldl_avgStep, length_foldl_insert_nil]
  simp only [zero_add, activeDays]

/-- **C4.** `avgUsageForItem` sums the qty of `use` transactions of the
branch and item dated within the trailing window and divides by the count
of distinct calendar days carrying at least one qualifying transaction,
falling back to `rangeDays` as divisor when that count is zero; with no
qualifying usage the result is 0; and `use` transactions totalling 20 on
exactly 2 distinct days of a 30-day window average to 10. -/
theorem avgUsageForItem_spec :
    (∀ (b i : String) (rangeDays now : ℤ) (txs : List Tx),
        avgUsageForItem b i rangeDays now txs
          = usageTotal b i (now - rangeDays * msPerDay) txs
            / (((if activeDays b i (now - rangeDays * msPerDay) txs = 0
                  then rangeDays
                  else (activeDays b i (now - rangeDays * msPerDay) txs : ℤ)) : ℤ) : ℚ))
    ∧ (∀ (b i : String) (rangeDays now : ℤ) (txs : List Tx),
        usageQualifying b i (now - rangeDays * msPerDay) txs = [] →
        avgUsageForItem b i rangeDays now txs = 0)
    ∧ avgUsageForItem "b1" "i1" 30 8640000000
        [⟨"u1", .use, "i1", 10, 8251200000, "", some "b1", none, none⟩,
         ⟨"u2", .use, "i1", 10, 8337600000, "", some "b1", none, none⟩] = 10 := by
  have hmain := avgUsageForItem_eq
  refine ⟨hmain, ?_, ?_⟩
  · intro b i rangeDays now txs hq
    rw [hmain]
    have ht : usageTotal b i (now - rangeDays * msPerDay) txs = 0 := by
      rw [usageTotal, hq]
      simp
    rw [ht, zero_div]
  · rw [hmain]
    have hq : usageQualifying "b1" "i1" (8640000000 - 30 * msPerDay)
        [⟨"u1", .use, "i1", 10, 8251200000, "", some "b1", none, none⟩,
         ⟨"u2", .use, "i1", 10, 8337600000, "", some "b1", none, none⟩]
        = [⟨"u1", .use, "i1", 10, 8251200000, "", some "b1", none, none⟩,
           ⟨"u2", .use, "i1", 10, 8337600000, "", some "b1", none, none⟩] := by
      rw [usageQualifying]
      rw [List.filter_cons, List.filter_cons]
      have h1 : usageQualifies "b1" "i1" (8640000000 - 30 * msPerDay)
          ⟨"u1", .use, "i1", 10, 8251200000, "", some "b1", none, none⟩ = true := by
        rw [usageQualifies]
        simp [msPerDay]
      have h2 : usageQualifies "b1" "i1" (8640000000 - 30 * msPerDay)
          ⟨"u2", .use, "i1", 10, 8337600000, "", some "b1", none, none⟩ = true := by
        rw [usageQualifies]
        simp [msPerDay]
      rw [h1, h2]
      simp
    have hdays : activeDays "b1" "i1" (8640000000 - 30 * msPerDay)
        [⟨"u1", .use, "i1", 10, 8251200000, "", some "b1", none, none⟩,
         ⟨"u2", .use, "i1", 10, 8337600000, "", some "b1", none, none⟩] = 2 := by
      rw [activeDays, qualDays, hq]
      have hd1 : dayOf 8251200000 = 95 := by decide
      have hd2 : dayOf 8337600000 = 96 := by decide
      rw [List.map_cons, List.map_cons, List.map_nil, hd1, hd2]
      decide
    have htot : usageTotal "b1" "i1" (8640000000 - 30 * msPerDay)
        [⟨"u1", .use, "i1", 10, 8251200000, "", some "b1", none, none⟩,
         ⟨"u2", .use, "i1", 10, 8337600000, "", some "b1", none, none⟩] = 20 := by
      rw [usageTotal, hq]
      norm_num
    rw [hdays, htot]
    norm_num

/-- Witness for C4: with an empty ledger nothing qualifies and the
average is 0. -/
theorem avgUsageForItem_spec_witness :
    avgUsageForItem "b1" "i1" 30 0 [] = 0 :=
  avgUsageForItem_spec.2.1 "b1" "i1" 30 0 [] rfl

/-! ## Reorder suggestion (`suggestedOrderQty`) -/

/-- `item.leadTime || 2`: the default of 2 applies both when the field is
absent and when it holds the falsy value `0`. -/
def leadDays (item : Item) : ℚ :=
  match item.leadTime with
  | none => 2
  | some l => if l = 0 then 2 else l

/-- `suggestedOrderQty(branchIdArg, itemIdArg)`: look the item up by id
(returning 0 when unknown), take the 30-day trailing average usage (the
source applies `|| 0`, which on rationals is the identity since the NaN it
guards against cannot arise), the lead time with its default, the fixed
safety factor 1.2, and return
`max(0, ceil(avgDaily * lead * 1.2 - currentStock))` via
`needed > 0 ? needed : 0`. -/
def suggestedOrderQty (branchIdArg itemIdArg : String) (items : List Item)
    (now : ℤ) (txs : List Tx) : ℤ :=
  match items.find? (fun it => decide (it.id = itemIdArg)) with
  | none => 0
  | some item =>
    let avgDaily := avgUsageForItem branchIdArg itemIdArg 30 now txs
    let lead := leadDays item
    let safetyFactor : ℚ := 1.2
    let needed : ℤ :=
      ⌈avgDaily * lead * safetyFactor - getCurrentStock branchIdArg itemIdArg txs⌉
    if needed > 0 then needed else 0

theorem if_pos_eq_max (n : ℤ) : (if n > 0 then n else 0) = max 0 n := by
  rcases le_or_lt n 0 with h | h
  · rw [if_neg (not_lt.mpr h), max_eq_left h]
  · rw [if_pos h, max_eq_right h.le]

/-- The transactions of the reorder scenarios: one receive and two `use`
transactions of 10 on distinct days inside the 30-day window before
`now = 8640000000` (day 100), giving an average daily usage of 10. -/
def scenarioTxs (receiveQty : ℚ) : List Tx :=
  [⟨"r1", .receive, "i1", receiveQty, 8121600000, "", some "b1", none, none⟩,
   ⟨"u1", .use, "i1", 10, 8251200000, "", some "b1", none, none⟩,
   ⟨"u2", .use, "i1", 10, 8337600000, "", some "b1", none, none⟩]

theorem scenarioTxs_avg (q : ℚ) :
    avgUsageForItem "b1" "i1" 30 8640000000 (scenarioTxs q) = 10 := by
  rw [avgUsageForItem_eq]
  have hq : usageQualifying "b1" "i1" (8640000000 - 30 * msPerDay) (scenarioTxs q)
      = [⟨"u1", .use, "i1", 10, 8251200000, "", some "b1", none, none⟩,
         ⟨"u2", .use, "i1", 10, 8337600000, "", some "b1", none, none⟩] := by
    rw [scenarioTxs, usageQualifying, List.filter_cons, List.filter_cons, List.filter_cons]
    have h0 : usageQualifies "b1" "i1" (8640000000 - 30 * msPerDay)
        ⟨"r1", .receive, "i1", q, 8121600000, "", some "b1", none, none⟩ = false := by
      rw [usageQualifies]
      simp
    have h1 : usageQualifies "b1" "i1" (8640000000 - 30 * msPerDay)
        ⟨"u1", .use, "i1", 10, 8251200000, "", some "b1", none, none⟩ = true := by
      rw [usageQualifies]
      simp [msPerDay]
    have h2 : usageQualifies "b1" "i1" (8640000000 - 30 * msPerDay)
        ⟨"u2", .use, "i1", 10, 8337600000, "", some "b1", none, none⟩ = true := by
      rw [usageQualifies]
      simp [msPerDay]
    rw [h0, h1, h2]
    simp
  have hdays : activeDays "b1" "i1" (8640000000 - 30 * msPerDay) (scenarioTxs q) = 2 := by
    rw [activeDays, qualDays, hq]
    have hd1 : dayOf 8251200000 = 95 := by decide
    have hd2 : dayOf 8337600000 = 96 := by decide
    rw [List.map_cons, List.map_cons, List.map_nil, hd1, hd2]
    decide
  have htot : usageTotal "b1" "i1" (8640000000 - 30 * msPerDay) (scenarioTxs q) = 20 := by
    rw [usageTotal, hq]
    norm_num
  rw [hdays, htot]
  norm_num

theorem scenarioTxs_stock (q : ℚ) (n : ℤ) (h : q - 20 = (n : ℚ)) (hn : 0 ≤ n) :
    getCurrentStock "b1" "i1" (scenarioTxs q) = (n : ℚ) := by
  have hfold : List.foldl (stockStep "b1" "i1") 0 (scenarioTxs q) = (n : ℚ) := by
    rw [scenarioTxs]
    simp [List.foldl, stockStep]
    linarith [h]
  rw [getCurrentStock_of_foldl hfold, max_eq_right]
  exact_mod_cast hn

/-- **C5.** `suggestedOrderQty` equals
`max(0, ceil(avgDaily * lead * 1.2 - currentStock))` with `lead` the
item's lead time under the `|| 2` default, returns 0 when the item id is
unknown, and on the concrete scenarios (avgDaily 10, lead 2) suggests 19
at stock 5 and 0 at stock 25. -/
theorem suggestedOrderQty_spec :
    (∀ (b i : String) (items : List Item) (now : ℤ) (txs : List Tx),
        suggestedOrderQty b i items now txs
          = match items.find? (fun it => decide (it.id = i)) with
            | none => 0
            | some item =>
                max 0 ⌈avgUsageForItem b i 30 now txs * leadDays item * (1.2 : ℚ)
                        - getCurrentStock b i txs⌉)
    ∧ (∀ (b i : String) (items : List Item) (now : ℤ) (txs : List Tx),
        items.find? (fun it => decide (it.id = i)) = none →
        suggestedOrderQty b i items now txs = 0)
    ∧ suggestedOrderQty "b1" "i1"
        [⟨"i1", "Tomato", "Vegetable", "kg", 10, 20, some 2, 30, "Cold Room"⟩]
        8640000000 (scenarioTxs 25) = 19
    ∧ suggestedOrderQty "b1" "i1"
        [⟨"i1", "Tomato", "Vegetable", "kg", 10, 20, some 2, 30, "Cold Room"⟩]
        8640000000 (scenarioTxs 45) = 0 := by
  have hmain : ∀ (b i : String) (items : List Item) (now : ℤ) (txs : List Tx),
      suggestedOrderQty b i items now txs
        = match items.find? (fun it => decide (it.id = i)) with
          | none => 0
          | some item =>
              max 0 ⌈avgUsageForItem b i 30 now txs * leadDays item * (1.2 : ℚ)
                      - getCurrentStock b i txs⌉ := by
    intro b i items now txs
    rcases hfind : items.find? (fun it => decide (it.id = i)) with _ | item
    · simp only [suggestedOrderQty, hfind]
    · simp only [suggestedOrderQty, hfind, if_pos_eq_max]
  have hfind : List.find? (fun it => decide (it.id = "i1"))
      ([⟨"i1", "Tomato", "Vegetable", "kg", 10, 20, some 2, 30, "Cold Room"⟩] : List Item)
      = some ⟨"i1", "Tomato", "Vegetable", "kg", 10, 20, some 2, 30, "Cold Room"⟩ := by
    rfl
  have hlead : leadDays ⟨"i1", "Tomato", "Vegetable", "kg", 10, 20, some 2, 30, "Cold Room"⟩
      = 2 := by
    rw [leadDays]
    norm_num
  refine ⟨hmain, ?_, ?_, ?_⟩
  · intro b i items now txs hnone
    rw [hmain]
    rw [hnone]
  · rw [hmain]
    rw [hfind]
    simp only [scenarioTxs_avg, hlead,
      scenarioTxs_stock 25 5 (by norm_num) (by norm_num)]
    have h19 : (10 : ℚ) * 2 * 1.2 - ((5 : ℤ) : ℚ) = ((19 : ℤ) : ℚ) := by norm_num
    rw [h19, Int.ceil_intCast]
    rfl
  · rw [hmain]
    rw [hfind]
    simp only [scenarioTxs_avg, hlead,
      scenarioTxs_stock 45 25 (by norm_num) (by norm_num)]
    have hm1 : (10 : ℚ) * 2 * 1.2 - ((25 : ℤ) : ℚ) = ((-1 : ℤ) : ℚ) := by norm_num
    rw [hm1, Int.ceil_intCast]
    rfl

/-- Witness for C5: an empty item list makes the lookup fail, so the
suggestion is 0. -/
theorem suggestedOrderQty_spec_witness :
    suggestedOrderQty "b1" "i1" [] 0 [] = 0 :=
  suggestedOrderQty_spec.2.1 "b1" "i1" [] 0 [] rfl

/-- **C9.** An item whose stored lead time is exactly 0 is computed with
the default lead time 2 (the falsy `0` triggers `|| 2` exactly like an
absent field), so such an item can receive a positive suggestion: with
average daily usage 10 and stock 5 it gets 19, although a true lead time
of 0 would demand nothing. -/
theorem suggestedOrderQty_leadTime_zero :
    (∀ (item : Item), item.leadTime = some 0 → leadDays item = 2)
    ∧ (∀ (b i : String) (items : List Item) (now : ℤ) (txs : List Tx) (item : Item),
        items.find? (fun it => decide (it.id = i)) = some item →
        item.leadTime = some 0 →
        suggestedOrderQty b i items now txs
          = (if (⌈avgUsageForItem b i 30 now txs * 2 * (1.2 : ℚ)
                  - getCurrentStock b i txs⌉ : ℤ) > 0
             then ⌈avgUsageForItem b i 30 now txs * 2 * (1.2 : ℚ)
                  - getCurrentStock b i txs⌉ else 0))
    ∧ 0 < suggestedOrderQty "b1" "i1"
        [⟨"i1", "Tomato", "Vegetable", "kg", 10, 20, some 0, 30, "Cold Room"⟩]
        8640000000 (scenarioTxs 25) := by
  have hlead : ∀ (item : Item), item.leadTime = some 0 → leadDays item = 2 := by
    intro item h
    rw [leadDays, h]
    norm_num
  have hmain : ∀ (b i : String) (items : List Item) (now : ℤ) (txs : List Tx) (item : Item),
      items.find? (fun it => decide (it.id = i)) = some item →
      item.leadTime = some 0 →
      suggestedOrderQty b i items now txs
        = (if (⌈avgUsageForItem b i 30 now txs * 2 * (1.2 : ℚ)
                - getCurrentStock b i txs⌉ : ℤ) > 0
           then ⌈avgUsageForItem b i 30 now txs * 2 * (1.2 : ℚ)
                - getCurrentStock b i txs⌉ else 0) := by
    intro b i items now txs item hfind hzero
    simp only [suggestedOrderQty, hfind, hlead item hzero]
  refine ⟨hlead, hmain, ?_⟩
  rw [hmain "b1" "i1"
      ([⟨"i1", "Tomato", "Vegetable", "kg", 10, 20, some 0, 30, "Cold Room"⟩] : List Item)
      8640000000 (scenarioTxs 25)
      ⟨"i1", "Tomato", "Vegetable", "kg", 10, 20, some 0, 30, "Cold Room"⟩ rfl rfl,
    scenarioTxs_avg, scenarioTxs_stock 25 5 (by norm_num) (by norm_num)]
  have : (10 : ℚ) * 2 * 1.2 - ((5 : ℤ) : ℚ) = ((19 : ℤ) : ℚ) := by norm_num
  rw [this, Int.ceil_intCast]
  norm_num

/-- Witness for C9: the concrete lead-time-0 item of the theorem, spelled
as a closed instance. -/
theorem suggestedOrderQty_leadTime_zero_witness :
    leadDays ⟨"i1", "Tomato", "Vegetable", "kg", 10, 20, some 0, 30, "Cold Room"⟩ = 2 :=
  suggestedOrderQty_leadTime_zero.1
    ⟨"i1", "Tomato", "Vegetable", "kg", 10, 20, some 0, 30, "Cold Room"⟩ rfl

/-! ## Daily movement record (`calcDailyRecord`) -/

/-- The result record of `calcDailyRecord`. The source field `end` is a
Lean keyword and is rendered `endStock`. -/
structure DailyRecord where
  start : ℚ
  received : ℚ
  transferIn : ℚ
  transferOut : ℚ
  used : ℚ
  wastage : ℚ
  endStock : ℚ
deriving DecidableEq

/-- `getLatestEndStockBefore`: the demo always returns `null` (no
end-of-day snapshot mechanism is implemented), so the opening balance is
always treated as absent. -/
def getLatestEndStockBefore (branchId itemId : String) (dateDay : ℤ) : Option ℚ :=
  none

/-- `calcDailyRecord(branchId, itemId, dateISO)`: keep the item's
transactions whose calendar day equals that of `dateISO`, sum the five
movement categories with the branch-matching rules, take `start` from the
(always absent) snapshot lookup with 0 as fallback, and report
`end = start + received + transferIn - used - transferOut - wastage`
without clamping. -/
def calcDailyRecord (branchId itemId : String) (dateISO : ℤ) (txs : List Tx) :
    DailyRecord :=
  let day := dayOf dateISO
  let dtxs := txs.filter (fun t => decide (t.itemId = itemId ∧ dayOf t.date = day))
  let received := ((dtxs.filter (fun t =>
    decide (t.type = TxType.receive ∧ t.branchId = some branchId))).map Tx.qty).sum
  let transferOut := ((dtxs.filter (fun t =>
    decide (t.type = TxType.transfer ∧ t.branchFrom = some branchId))).map Tx.qty).sum
  let transferIn := ((dtxs.filter (fun t =>
    decide (t.type = TxType.transfer ∧ t.branchTo = some branchId))).map Tx.qty).sum
  let used := ((dtxs.filter (fun t =>
    decide (t.type = TxType.use ∧ t.branchId = some branchId))).map Tx.qty).sum
  let wastage := ((dtxs.filter (fun t =>
    decide (t.type = TxType.wastage ∧ t.branchId = some branchId))).map Tx.qty).sum
  let previous := getLatestEndStockBefore branchId itemId day
  let start := previous.getD 0
  ⟨start, received, transferIn, transferOut, used, wastage,
    start + received + transferIn - used - transferOut - wastage⟩

theorem filter_idem {α : Type} (p : α → Bool) (l : List α) :
    (l.filter p).filter p = l.filter p := by
  rw [List.filter_filter]
  congr 1
  funext t
  rw [Bool.and_self]

theorem sum_filter_map {α : Type} (f : α → ℚ) (p : α → Bool) :
    ∀ (l : List α),
      ((l.filter p).map f).sum = (l.map (fun t => if p t = true then f t else 0)).sum
  | [] => by simp
  | t :: l => by
    rw [List.filter_cons, List.map_cons, List.sum_cons, ← sum_filter_map f p l]
    by_cases h : p t = true
    · rw [if_pos h, if_pos h, List.map_cons, List.sum_cons]
    · rw [if_neg h, if_neg h, zero_add]

theorem txEffect_decomp (b : String) (t : Tx) :
    txEffect b t
      = (if decide (t.type = TxType.receive ∧ t.branchId = some b) = true then t.qty else 0)
        + (if decide (t.type = TxType.transfer ∧ t.branchTo = some b) = true then t.qty else 0)
        - (if decide (t.type = TxType.use ∧ t.branchId = some b) = true then t.qty else 0)
        - (if decide (t.type = TxType.wastage ∧ t.branchId = some b) = true then t.qty else 0)
        - (if decide (t.type = TxType.transfer ∧ t.branchFrom = some b) = true then t.qty
           else 0) := by
  unfold txEffect
  simp only [decide_eq_true_eq]

theorem sum_txEffect_split (b : String) : ∀ (l : List Tx),
    (l.map (txEffect b)).sum
      = ((l.filter (fun t =>
            decide (t.type = TxType.receive ∧ t.branchId = some b))).map Tx.qty).sum
        + ((l.filter (fun t =>
            decide (t.type = TxType.transfer ∧ t.branchTo = some b))).map Tx.qty).sum
        - ((l.filter (fun t =>
            decide (t.type = TxType.use ∧ t.branchId = some b))).map Tx.qty).sum
        - ((l.filter (fun t =>
            decide (t.type = TxType.wastage ∧ t.branchId = some b))).map Tx.qty).sum
        - ((l.filter (fun t =>
            decide (t.type = TxType.transfer ∧ t.branchFrom = some b))).map Tx.qty).sum
  | [] => by simp
  | t :: l => by
    rw [List.map_cons, List.sum_cons, sum_txEffect_split b l, txEffect_decomp,
      sum_filter_map, sum_filter_map, sum_filter_map, sum_filter_map, sum_filter_map,
      sum_filter_map, sum_filter_map, sum_filter_map, sum_filter_map, sum_filter_map,
      List.map_cons, List.sum_cons, List.map_cons, List.sum_cons, List.map_cons,
      List.sum_cons, List.map_cons, List.sum_cons, List.map_cons, List.sum_cons]
    ring

/-- **C6.** `calcDailyRecord` considers only the item's transactions whose
calendar day equals that of `dateISO` (time of day ignored); `start` is 0
because the opening-balance lookup always reports no prior balance; the
reported `end` is `start + received + transferIn - used - transferOut -
wastage`, which also equals `start` plus the signed per-item movement sum
of the day's transactions (the branch-matching rules of `currentStock`);
and `end` is not clamped: a lone `use` of 5 yields `end = -5`. -/
theorem calcDailyRecord_spec :
    (∀ (b i : String) (dateISO : ℤ) (txs : List Tx),
        calcDailyRecord b i dateISO txs
          = calcDailyRecord b i dateISO
              (txs.filter (fun t => decide (t.itemId = i ∧ dayOf t.date = dayOf dateISO))))
    ∧ (∀ (b i : String) (dateISO : ℤ) (txs : List Tx),
        (calcDailyRecord b i dateISO txs).start = 0)
    ∧ (∀ (b i : String) (dateISO : ℤ) (txs : List Tx),
        (calcDailyRecord b i dateISO txs).endStock
          = (calcDailyRecord b i dateISO txs).start
            + (calcDailyRecord b i dateISO txs).received
            + (calcDailyRecord b i dateISO txs).transferIn
            - (calcDailyRecord b i dateISO txs).used
            - (calcDailyRecord b i dateISO txs).transferOut
            - (calcDailyRecord b i dateISO txs).wastage)
    ∧ (∀ (b i : String) (dateISO : ℤ) (txs : List Tx),
        (calcDailyRecord b i dateISO txs).endStock
          = (calcDailyRecord b i dateISO txs).start
            + signedStock b i
                (txs.filter (fun t => decide (t.itemId = i ∧ dayOf t.date = dayOf dateISO))))
    ∧ (calcDailyRecord "b1" "i1" 43200000
        [⟨"u1", .use, "i1", 5, 0, "", some "b1", none, none⟩]).endStock = -5 := by
  refine ⟨?_, ?_, ?_, ?_, ?_⟩
  · intro b i dateISO txs
    simp only [calcDailyRecord, filter_idem]
  · intro b i dateISO txs
    rfl
  · intro b i dateISO txs
    rfl
  · intro b i dateISO txs
    show (0 : ℚ) + _ + _ - _ - _ - _ = (0 : ℚ) + _
    rw [signedStock]
    have hsub : (txs.filter
          (fun t => decide (t.itemId = i ∧ dayOf t.date = dayOf dateISO))).filter
            (fun t => decide (t.itemId = i))
        = txs.filter (fun t => decide (t.itemId = i ∧ dayOf t.date = dayOf dateISO)) := by
      rw [List.filter_filter]
      congr 1
      funext t
      by_cases h : t.itemId = i ∧ dayOf t.date = dayOf dateISO
      · simp [h, h.1]
      · simp [h]
    rw [hsub, sum_txEffect_split]
    ring
  · have hd : dayOf 0 = dayOf 43200000 := by decide
    show (0 : ℚ) + _ + _ - _ - _ - _ = -5
    rw [show ([⟨"u1", .use, "i1", 5, 0, "", some "b1", none, none⟩] : List Tx).filter
          (fun t => decide (t.itemId = "i1" ∧ dayOf t.date = dayOf 43200000))
        = [⟨"u1", .use, "i1", 5, 0, "", some "b1", none, none⟩] from by
      rw [List.filter_cons]
      simp [hd]]
    simp [List.filter_cons]

/-! ## Period usage report (`ReportsView`) -/

/-- Proleptic Gregorian (year, month) of a day number counted from the
epoch, by the standard civil-from-days division algorithm; this embeds
`getFullYear()` / `getMonth() + 1` of the transaction instant (taken in
UTC). -/
def civilYM (z : ℤ) : ℤ × ℤ :=
  let z2 := z + 719468
  let era := z2.fdiv 146097
  let doe := z2 - era * 146097
  let yoe := (doe - doe / 1460 + doe / 36524 - doe / 146096) / 365
  let y := yoe + era * 400
  let doy := doe - (365 * yoe + yoe / 4 - yoe / 100)
  let mp := (5 * doy + 2) / 153
  let m := mp + (if mp < 10 then 3 else -9)
  (if m ≤ 2 then y + 1 else y, m)

/-- Calendar year of an epoch-millisecond timestamp. -/
def yearOf (ms : ℤ) : ℤ := (civilYM (dayOf ms)).1

/-- Calendar month (1–12) of an epoch-millisecond timestamp. -/
def monthOf (ms : ℤ) : ℤ := (civilYM (dayOf ms)).2

/-- One step of the `reduce` computing an item's `usedQty` in
`ReportsView`: skip other items, other years, other months (monthly mode
only, i.e. when `month` is supplied), and transactions not touching the
branch; add the qty of `use` transactions only. -/
def usedQtyStep (branchIdArg : String) (year : ℤ) (month : Option ℤ) (itId : String)
    (acc : ℚ) (t : Tx) : ℚ :=
  if t.itemId ≠ itId then acc
  else if yearOf t.date ≠ year then acc
  else if month.any (fun m => decide (monthOf t.date ≠ m)) = true then acc
  else if t.branchId ≠ some branchIdArg ∧ t.branchFrom ≠ some branchIdArg
      ∧ t.branchTo ≠ some branchIdArg then acc
  else if t.type = TxType.use then acc + t.qty
  else acc

/-- The `reduce(..., 0)` of `ReportsView` for one item. -/
def usedQtyFor (branchIdArg : String) (year : ℤ) (month : Option ℤ) (itId : String)
    (txs : List Tx) : ℚ :=
  txs.foldl (usedQtyStep branchIdArg year month itId) 0

/-- An item together with its period usage, as built by `ReportsView`. -/
structure ItemUsage where
  item : Item
  usedQty : ℚ
deriving DecidableEq

/-- The comparator of `.sort((a, b) => b.usedQty - a.usedQty)`:
descending by used quantity. -/
def usageGE (x y : ItemUsage) : Bool := decide (y.usedQty ≤ x.usedQty)

/-- `itemsWithUsage`: map every item to its period usage and sort by
descending `usedQty`. -/
def itemsWithUsage (branchIdArg : String) (year : ℤ) (month : Option ℤ)
    (items : List Item) (txs : List Tx) : List ItemUsage :=
  (items.map (fun it => ⟨it, usedQtyFor branchIdArg year month it.id txs⟩)).mergeSort
    usageGE

/-- `totalCost`: `reduce((acc, it) => acc + it.usedQty * (it.unitCost || 0), 0)`
(`|| 0` is the identity on rationals, where the guarded `undefined`
cannot arise). -/
def totalCost (rows : List ItemUsage) : ℚ :=
  rows.foldl (fun acc r => acc + r.usedQty * r.item.unitCost) 0

/-- Specification-side month filter: satisfied vacuously in yearly mode
(`month = none`), otherwise requires the matching calendar month. -/
def monthMatches (month : Option ℤ) (t : Tx) : Bool :=
  match month with
  | none => true
  | some m => decide (monthOf t.date = m)

/-- Specification-side predicate: the transaction belongs to the item,
its year (and in monthly mode its month) matches, it touches the branch
as `branchId`, `branchFrom` or `branchTo`, and it is a `use`. -/
def periodUseQualifies (b : String) (year : ℤ) (month : Option ℤ) (itId : String)
    (t : Tx) : Bool :=
  decide (t.itemId = itId) && decide (yearOf t.date = year) && monthMatches month t
    && decide (t.branchId = some b ∨ t.branchFrom = some b ∨ t.branchTo = some b)
    && decide (t.type = TxType.use)

/-- Specification-side period usage: the sum of `qty` over qualifying
transactions. -/
def periodUseQty (b : String) (year : ℤ) (month : Option ℤ) (itId : String)
    (txs : List Tx) : ℚ :=
  ((txs.filter (periodUseQualifies b year month itId)).map Tx.qty).sum

theorem foldl_add_eq {α : Type} (g : α → ℚ) (step : ℚ → α → ℚ)
    (hstep : ∀ acc t, step acc t = acc + g t) :
    ∀ (l : List α) (a : ℚ), l.foldl step a = a + (l.map g).sum
  | [], a => by simp
  | t :: l, a => by
    rw [List.foldl_cons, hstep, foldl_add_eq g step hstep l, List.map_cons, List.sum_cons]
    ring

theorem usedQtyStep_eq (b : String) (year : ℤ) (month : Option ℤ) (itId : String)
    (acc : ℚ) (t : Tx) :
    usedQtyStep b year month itId acc t
      = acc + (if periodUseQualifies b year month itId t = true then t.qty else 0) := by
  by_cases h1 : t.itemId = itId
  swap
  · have hq : periodUseQualifies b year month itId t = false := by
      simp [periodUseQualifies, h1]
    rw [usedQtyStep, if_pos h1, hq]
    norm_num
  by_cases h2 : yearOf t.date = year
  swap
  · have hq : periodUseQualifies b year month itId t = false := by
      simp [periodUseQualifies, h2]
    rw [usedQtyStep, if_neg (not_not_intro h1), if_pos h2, hq]
    norm_num
  by_cases h3 : monthMatches month t = true
  swap
  · have h3f : monthMatches month t = false := by
      revert h3
      cases monthMatches month t <;> simp
    have hany : month.any (fun m => decide (monthOf t.date ≠ m)) = true := by
      cases month with
      | none => simp [monthMatches] at h3f
      | some m =>
        simp only [monthMatches, decide_eq_false_iff_not] at h3f
        simp [h3f]
    have hq : periodUseQualifies b year month itId t = false := by
      simp [periodUseQualifies, h3f]
    rw [usedQtyStep, if_neg (not_not_intro h1), if_neg (not_not_intro h2), if_pos hany, hq]
    norm_num
  have hany : ¬ (month.any (fun m => decide (monthOf t.date ≠ m)) = true) := by
    cases month with
    | none => simp
    | some m =>
      simp only [monthMatches, decide_eq_true_eq] at h3
      simp [h3]
  by_cases h4 : t.branchId = some b ∨ t.branchFrom = some b ∨ t.branchTo = some b
  swap
  · have h4c : t.branchId ≠ some b ∧ t.branchFrom ≠ some b ∧ t.branchTo ≠ some b := by
      push_neg at h4
      exact h4
    have hq : periodUseQualifies b year month itId t = false := by
      simp [periodUseQualifies, h4]
    rw [usedQtyStep, if_neg (not_not_intro h1), if_neg (not_not_intro h2), if_neg hany,
      if_pos h4c, hq]
    norm_num
  have h4c : ¬(t.branchId ≠ some b ∧ t.branchFrom ≠ some b ∧ t.branchTo ≠ some b) := by
    rcases h4 with h | h | h <;> simp [h]
  by_cases h5 : t.type = TxType.use
  · have hq : periodUseQualifies b year month itId t = true := by
      simp [periodUseQualifies, h1, h2, h3, h4, h5]
    rw [usedQtyStep, if_neg (not_not_intro h1), if_neg (not_not_intro h2), if_neg hany,
      if_neg h4c, if_pos h5, hq, if_pos rfl]
  · have hq : periodUseQualifies b year month itId t = false := by
      simp [periodUseQualifies, h5]
    rw [usedQtyStep, if_neg (not_not_intro h1), if_neg (not_not_intro h2), if_neg hany,
      if_neg h4c, if_neg h5, hq]
    norm_num

theorem usedQtyFor_eq (b : String) (year : ℤ) (month : Option ℤ) (itId : String)
    (txs : List Tx) :
    usedQtyFor b year month itId txs = periodUseQty b year month itId txs := by
  rw [usedQtyFor,
    foldl_add_eq (fun t => if periodUseQualifies b year month itId t = true then t.qty else 0)
      (usedQtyStep b year month itId) (usedQtyStep_eq b year month itId),
    zero_add, periodUseQty, sum_filter_map]

theorem usageGE_trans (a b c : ItemUsage) :
    usageGE a b → usageGE b c → usageGE a c := by
  simp only [usageGE, decide_eq_true_eq]
  intro h1 h2
  exact le_trans h2 h1

theorem usageGE_total (a b : ItemUsage) : usageGE a b || usageGE b a := by
  rcases le_total a.usedQty b.usedQty with h | h <;> simp [usageGE, h]

/-- **C7.** The period report rows are a permutation of the items, each
paired with a `usedQty` equal to the sum of `qty` over `use` transactions
of that item matching the year (and month, in monthly mode) and touching
the branch via `branchId`, `branchFrom` or `branchTo`; the rows come out
sorted by descending `usedQty`; and `totalCost` is the sum over the items
of `usedQty * unitCost`. -/
theorem reportsView_spec :
    (∀ (b : String) (year : ℤ) (month : Option ℤ) (items : List Item) (txs : List Tx),
        (itemsWithUsage b year month items txs).Perm
          (items.map (fun it => (⟨it, periodUseQty b year month it.id txs⟩ : ItemUsage))))
    ∧ (∀ (b : String) (year : ℤ) (month : Option ℤ) (items : List Item) (txs : List Tx),
        (itemsWithUsage b year month items txs).Pairwise
          (fun x y => y.usedQty ≤ x.usedQty))
    ∧ (∀ (b : String) (year : ℤ) (month : Option ℤ) (items : List Item) (txs : List Tx),
        totalCost (itemsWithUsage b year month items txs)
          = (items.map (fun it => periodUseQty b year month it.id txs * it.unitCost)).sum) := by
  have hmapeq : ∀ (b : String) (year : ℤ) (month : Option ℤ) (items : List Item)
      (txs : List Tx),
      items.map (fun it => (⟨it, usedQtyFor b year month it.id txs⟩ : ItemUsage))
        = items.map (fun it => (⟨it, periodUseQty b year month it.id txs⟩ : ItemUsage)) := by
    intro b year month items txs
    apply List.map_congr_left
    intro it _
    rw [usedQtyFor_eq]
  have hperm : ∀ (b : String) (year : ℤ) (month : Option ℤ) (items : List Item)
      (txs : List Tx),
      (itemsWithUsage b year month items txs).Perm
        (items.map (fun it => (⟨it, periodUseQty b year month it.id txs⟩ : ItemUsage))) := by
    intro b year month items txs
    rw [itemsWithUsage, hmapeq]
    exact List.mergeSort_perm _ _
  refine ⟨hperm, ?_, ?_⟩
  · intro b year month items txs
    have h := List.sorted_mergeSort usageGE_trans usageGE_total
      (items.map (fun it => (⟨it, usedQtyFor b year month it.id txs⟩ : ItemUsage)))
    rw [itemsWithUsage]
    exact h.imp (fun hab => by
      simp only [usageGE, decide_eq_true_eq] at hab
      exact hab)
  · intro b year month items txs
    have hfold := foldl_add_eq (fun r : ItemUsage => r.usedQty * r.item.unitCost)
      (fun acc r => acc + r.usedQty * r.item.unitCost) (fun acc r => rfl)
      (itemsWithUsage b year month items txs) 0
    rw [totalCost, hfold, zero_add,
      List.Perm.sum_eq ((hperm b year month items txs).map
        (fun r : ItemUsage => r.usedQty * r.item.unitCost)),
      List.map_map]
    rfl

end Inventory
